import Mathlib

/-!
Shallow embedding of the semantic-kernel echo agent (a2a server variant):
the EchoPlugin capability functions, the EchoAgentExecutor event protocol,
the FastAPI invoke route of EchoAgentServer, and the configuration
environment-variable substitution. Machine strings are Lean strings; the
Python str operations startswith, endswith and the slice [2:-1] are embedded
as operations on the character sequence. Exceptions are modelled with
Except, and the try blocks of the source are embedded as separate functions
so that the catch behaviour of the source is itself part of the model.
-/

namespace EchoAgent

/-- Task lifecycle states used by the executor (a2a.types.TaskState). -/
inductive TaskState where
  | submitted
  | working
  | completed
  | failed
  deriving DecidableEq, Repr

/-- One message part, as the duck-typed extraction loop of the executor sees
it: a part carrying a text attribute, a wrapped part carrying root.text, or a
part with neither. -/
inductive Part where
  | text (s : String)
  | rootText (s : String)
  | other
  deriving DecidableEq, Repr

/-- A2A message: an ordered sequence of parts. -/
structure Message where
  parts : List Part
  deriving DecidableEq, Repr

/-- Response artifact. The random uuid artifact id of the source is omitted:
it is freshly generated, never read, and no claim mentions it. -/
structure Artifact where
  name : String
  description : String
  parts : List String
  deriving DecidableEq, Repr

/-- An event enqueued on the EventQueue: TaskStatusUpdateEvent or
TaskArtifactUpdateEvent, with the fields the executor sets. -/
inductive Event where
  | statusUpdate (taskId contextId : String) (state : TaskState) (final : Bool)
      (metadata : Option String)
  | artifactUpdate (taskId contextId : String) (artifact : Artifact)
      (lastChunk : Bool)
  deriving DecidableEq, Repr

/-- RequestContext as EchoAgentExecutor.execute reads it: context.message is
Optional in the a2a SDK (None is modelled as Option.none), context.task_id is
a plain string, and context_id is read through getattr with task_id as the
default (absence modelled as Option.none). -/
structure RequestContext where
  message : Option Message
  task_id : String
  context_id : Option String
  deriving Repr

/-- getattr(context, context_id, task_id): the context id, defaulting to the
task id. -/
def RequestContext.contextIdOrTask (ctx : RequestContext) : String :=
  ctx.context_id.getD ctx.task_id

/-- Keyword arguments passed to KernelFunction.invoke: the message kwarg is
always passed; the kwarg named prefix only when the caller supplies it. -/
structure KernelArgs where
  message : String
  pfx : Option String
  deriving Repr

/-- A registered kernel function; Except.error is a raised exception,
rendered as its message string. -/
abbrev KernelFn := KernelArgs → Except String String

/-- The kernel as the echo agent uses it: the mapping from
(plugin name, function name) to the registered function, as built by
kernel.add_plugin. -/
structure Kernel where
  functions : List ((String × String) × KernelFn)

/-- kernel.get_function(plugin, fn): raises (Except.error) when no such
function is registered. -/
def Kernel.get_function (k : Kernel) (plugin fn : String) :
    Except String KernelFn :=
  match k.functions.find? (fun e => e.1 == (plugin, fn)) with
  | some e => Except.ok e.2
  | none => Except.error ("Function " ++ fn ++ " not found in plugin " ++ plugin)

/-- EchoPlugin.echo: returns the same message that was input. -/
def echo (message : String) : String := message

/-- EchoPlugin.echo_with_prefix: the f-string concatenation of the prefix
argument and the message, with no separator. -/
def echo_with_prefix (message pfx : String) : String := pfx ++ message

/-- The kernel function registered for capability echo. -/
def echoKernelFn : KernelFn := fun args => Except.ok (echo args.message)

/-- The kernel function registered for capability echo_with_prefix: the
keyword argument named prefix defaults to "Echo: " when the caller does not
pass it. -/
def echoPrefixedKernelFn : KernelFn := fun args =>
  Except.ok ( echo_with_prefix args.message (args.pfx.getD "Echo: "))

/-- _initialize_kernel: registers EchoPlugin under plugin name echo_plugin.
The Azure chat-completion service it also adds is external and is never
invoked on any path modelled here. -/
def initialize_kernel : Kernel :=
  ⟨[(("echo_plugin", "echo"), echoKernelFn),
    (("echo_plugin", "echo_with_prefix"), echoPrefixedKernelFn)]⟩

/-- The text contributed by one part in the extraction loop of execute:
parts with neither a text attribute nor root.text contribute nothing. -/
def partText : Part → String
  | Part.text s => s
  | Part.rootText s => s
  | Part.other => ""

/-- The extraction loop of execute: text_content starts empty and each part
appends its text in order. -/
def extractText (parts : List Part) : String :=
  parts.foldl (fun acc p => acc ++ partText p) ""

/-- The working status event: TaskStatusUpdateEvent with state working and
final False. -/
def workingEvent (taskId contextId : String) : Event :=
  Event.statusUpdate taskId contextId TaskState.working false none

/-- The completed status event: TaskStatusUpdateEvent with state completed
and final True. -/
def completedEvent (taskId contextId : String) : Event :=
  Event.statusUpdate taskId contextId TaskState.completed true none

/-- The failed status event: TaskStatusUpdateEvent with state failed, final
True and the error message in the metadata. -/
def failedEvent (taskId contextId err : String) : Event :=
  Event.statusUpdate taskId contextId TaskState.failed true (some err)

/-- The artifact built by execute around the response text. -/
def responseArtifact (text : String) : Artifact :=
  ⟨"echo_response", "Echo response", [text]⟩

/-- The artifact update event: TaskArtifactUpdateEvent with last_chunk True. -/
def artifactEvent (taskId contextId text : String) : Event :=
  Event.artifactUpdate taskId contextId (responseArtifact text) true

/-- str(e) for the AttributeError raised by message.parts when
context.message is None (the quotation marks of the CPython rendering are
elided). -/
def attrErrNoneParts : String :=
  "AttributeError: NoneType object has no attribute parts"

/-- The body of the try block of EchoAgentExecutor.execute. Returns the
events enqueued before any exception, paired with the raised exception when
one occurred. Mirrors the source order: message and id access first, then
the extraction loop, then the working status event, then the kernel function
lookup and invocation, then the artifact and completed events. The
extraction loop runs BEFORE the working event is enqueued, so a failure
there (message is None) leaves the queue empty. -/
def executeTryBody (kernel : Kernel) (ctx : RequestContext) :
    List Event × Option String :=
  let taskId := ctx.task_id
  let contextId := ctx.contextIdOrTask
  match ctx.message with
  | none => ([], some attrErrNoneParts)
  | some msg =>
    let textContent := extractText msg.parts
    match kernel.get_function "echo_plugin" "echo" with
    | Except.error e => ([workingEvent taskId contextId], some e)
    | Except.ok fn =>
      match fn ⟨textContent, none⟩ with
      | Except.error e => ([workingEvent taskId contextId], some e)
      | Except.ok result =>
        ([workingEvent taskId contextId,
          artifactEvent taskId contextId result,
          completedEvent taskId contextId], none)

/-- EchoAgentExecutor.execute: runs the try body; the except clause enqueues
the terminal failed status event carrying str(e) as metadata. The function is
total: no exception escapes to the caller. -/
def execute (kernel : Kernel) (ctx : RequestContext) : List Event :=
  match executeTryBody kernel ctx with
  | (evs, none) => evs
  | (evs, some e) => evs ++ [failedEvent ctx.task_id ctx.contextIdOrTask e]

/-- EchoAgentExecutor.cancel: returns True unconditionally. -/
def cancel (_taskId : String) : Bool := true

/-- A terminal event: a status update with state completed or failed; in the
executor both always carry final = true. -/
def isTerminalEvent : Event → Bool
  | Event.statusUpdate _ _ s f _ =>
      f && (s == TaskState.completed || s == TaskState.failed)
  | Event.artifactUpdate _ _ _ _ => false

/-- Request body of POST /agent/invoke (pydantic MessageRequest). The
parameters dict is modelled as an association list of string values: the only
parameter the route reads is the one named prefix, a string. -/
structure MessageRequest where
  message : String
  capability : String
  parameters : List (String × String)
  deriving Repr

/-- Response body of POST /agent/invoke (pydantic MessageResponse). -/
structure MessageResponse where
  response : String
  agent_id : String
  capability_used : String
  deriving DecidableEq, Repr

/-- An exception raised inside the invoke_agent route body: a Starlette
HTTPException with status code and detail, or any other exception rendered
as its message. -/
inductive PyExc where
  | httpExc (status : Nat) (detail : String)
  | otherExc (msg : String)
  deriving DecidableEq, Repr

/-- str(e): Starlette renders an HTTPException as the status code, a colon
and the detail; other exceptions render as their message. -/
def PyExc.toStr : PyExc → String
  | PyExc.httpExc s d => toString s ++ ": " ++ d
  | PyExc.otherExc m => m

/-- The agent id of the AgentCard built by create_echo_agent_card. -/
def agentId : String := "echo-agent-v1"

/-- The try block of the invoke_agent route: dispatch on the capability
field; for echo invoke the registered echo function with the message; for
echo_with_prefix read the parameter named prefix with default "Echo: " and
pass it as the kwarg named prefix; for any other capability raise
HTTPException(status_code=400). Except.error is an exception raised inside
the block. -/
def invokeAgentTryBody (kernel : Kernel) (req : MessageRequest) :
    Except PyExc MessageResponse :=
  if req.capability == "echo" then
    match kernel.get_function "echo_plugin" "echo" with
    | Except.error e => Except.error (PyExc.otherExc e)
    | Except.ok fn =>
      match fn ⟨req.message, none⟩ with
      | Except.error e => Except.error (PyExc.otherExc e)
      | Except.ok txt => Except.ok ⟨txt, agentId, req.capability⟩
  else if req.capability == "echo_with_prefix" then
    match kernel.get_function "echo_plugin" "echo_with_prefix" with
    | Except.error e => Except.error (PyExc.otherExc e)
    | Except.ok fn =>
      let pfxArg := (req.parameters.lookup "prefix").getD "Echo: "
      match fn ⟨req.message, some pfxArg⟩ with
      | Except.error e => Except.error (PyExc.otherExc e)
      | Except.ok txt => Except.ok ⟨txt, agentId, req.capability⟩
  else
    Except.error (PyExc.httpExc 400 ("Unsupported capability: " ++ req.capability))

/-- The invoke_agent route of EchoAgentServer: the blanket except clause
catches EVERY exception the try block raises — including the
HTTPException(400) raised for an unsupported capability, since Starlette
HTTPException subclasses Exception — and re-raises HTTPException(500,
str(e)). Except.error carries the HTTP status and detail of the response. -/
def invoke_agent (kernel : Kernel) (req : MessageRequest) :
    Except (Nat × String) MessageResponse :=
  match invokeAgentTryBody kernel req with
  | Except.ok r => Except.ok r
  | Except.error e => Except.error (500, e.toStr)

/-- Python str.startswith: prefix test on the character sequence. -/
def pyStartswith (s p : String) : Bool := p.data.isPrefixOf s.data

/-- Python str.endswith: suffix test on the character sequence. -/
def pyEndswith (s p : String) : Bool := p.data.isSuffixOf s.data

/-- The Python slice obj[2:-1]: drop the first two characters and the last
character. -/
def pySlice2m1 (s : String) : String := ⟨(s.data.drop 2).dropLast⟩

/-- A YAML-loaded configuration value: a string, a mapping, a sequence, or
any other scalar (numbers, booleans, null), which the substitution leaves
untouched. -/
inductive ConfigVal where
  | str (v : String)
  | dict (entries : List (String × ConfigVal))
  | arr (items : List ConfigVal)
  | scalar
  deriving Repr

mutual
/-- _substitute_env_vars: recursively walk the configuration; a string value
that starts with the two characters dollar and open brace and ends with the
close brace is looked up (the text strictly between them) in the process
environment via os.getenv, with the unchanged literal as the default when
the variable is unset; all other values are returned unchanged. env models
os.getenv. -/
def substitute_env_vars (env : String → Option String) : ConfigVal → ConfigVal
  | ConfigVal.str v =>
    if pyStartswith v "$\x7b" && pyEndswith v "\x7d" then
      match env (pySlice2m1 v) with
      | some x => ConfigVal.str x
      | none => ConfigVal.str v
    else ConfigVal.str v
  | ConfigVal.dict entries => ConfigVal.dict (substEntries env entries)
  | ConfigVal.arr items => ConfigVal.arr (substItems env items)
  | ConfigVal.scalar => ConfigVal.scalar

/-- The dict branch of _substitute_env_vars: substitute each value. -/
def substEntries (env : String → Option String) :
    List (String × ConfigVal) → List (String × ConfigVal)
  | [] => []
  | e :: rest => (e.1, substitute_env_vars env e.2) :: substEntries env rest

/-- The list branch of _substitute_env_vars: substitute each item. -/
def substItems (env : String → Option String) : List ConfigVal → List ConfigVal
  | [] => []
  | v :: rest => substitute_env_vars env v :: substItems env rest
end

@[simp] theorem isTerminal_working (a b : String) :
    isTerminalEvent (workingEvent a b) = false := rfl

@[simp] theorem isTerminal_completed (a b : String) :
    isTerminalEvent (completedEvent a b) = true := rfl

@[simp] theorem isTerminal_failed (a b e : String) :
    isTerminalEvent (failedEvent a b e) = true := rfl

@[simp] theorem isTerminal_artifact (a b t : String) :
    isTerminalEvent (artifactEvent a b t) = false := rfl

/-- Case analysis of execute: exactly three event sequences are reachable,
depending on whether message access fails (context.message is None), the
kernel lookup or invocation raises, or everything succeeds. -/
theorem execute_shapes (kernel : Kernel) (ctx : RequestContext) :
    (ctx.message = none ∧
      execute kernel ctx =
        [failedEvent ctx.task_id ctx.contextIdOrTask attrErrNoneParts]) ∨
    (ctx.message ≠ none ∧ ∃ err, execute kernel ctx =
      [workingEvent ctx.task_id ctx.contextIdOrTask,
       failedEvent ctx.task_id ctx.contextIdOrTask err]) ∨
    (ctx.message ≠ none ∧ ∃ txt, execute kernel ctx =
      [workingEvent ctx.task_id ctx.contextIdOrTask,
       artifactEvent ctx.task_id ctx.contextIdOrTask txt,
       completedEvent ctx.task_id ctx.contextIdOrTask]) := by
  cases hm : ctx.message with
  | none =>
    left
    exact ⟨rfl, by simp [execute, executeTryBody, hm]⟩
  | some msg =>
    cases hf : kernel.get_function "echo_plugin" "echo" with
    | error e =>
      right; left
      exact ⟨by simp [hm], e, by simp [execute, executeTryBody, hm, hf]⟩
    | ok fn =>
      cases hr : fn ⟨extractText msg.parts, none⟩ with
      | error e =>
        right; left
        exact ⟨by simp [hm], e, by simp [execute, executeTryBody, hm, hf, hr]⟩
      | ok txt =>
        right; right
        exact ⟨by simp [hm], txt, by simp [execute, executeTryBody, hm, hf, hr]⟩

/-- C1 (amended): for every execution of EchoAgentExecutor.execute, the event
sequence enqueued is exactly one of [working, artifact, completed],
[working, failed], or — when message access fails because context.message is
None, since the extraction loop runs before the working event is enqueued —
[failed] alone; exactly one terminal event (completed or failed, final=true)
is enqueued and it is always last, never both; the working event is first
whenever the message is present. -/
theorem executor_event_sequences (kernel : Kernel) (ctx : RequestContext) :
    ((∃ txt, execute kernel ctx =
        [workingEvent ctx.task_id ctx.contextIdOrTask,
         artifactEvent ctx.task_id ctx.contextIdOrTask txt,
         completedEvent ctx.task_id ctx.contextIdOrTask]) ∨
     (∃ err, execute kernel ctx =
        [workingEvent ctx.task_id ctx.contextIdOrTask,
         failedEvent ctx.task_id ctx.contextIdOrTask err]) ∨
     (ctx.message = none ∧ execute kernel ctx =
        [failedEvent ctx.task_id ctx.contextIdOrTask attrErrNoneParts])) ∧
    (execute kernel ctx).countP (fun e => isTerminalEvent e) = 1 ∧
    (∃ pre e, execute kernel ctx = pre ++ [e] ∧ isTerminalEvent e = true) ∧
    ((execute kernel ctx).head? =
        some (workingEvent ctx.task_id ctx.contextIdOrTask) ∨
      ctx.message = none) := by
  rcases execute_shapes kernel ctx with ⟨hm, h⟩ | ⟨hm, err, h⟩ | ⟨hm, txt, h⟩
  · refine ⟨Or.inr (Or.inr ⟨hm, h⟩), ?_, ?_, Or.inr hm⟩
    · simp [h, List.countP_cons]
    · exact ⟨[], _, by simpa using h, by simp⟩
  · refine ⟨Or.inr (Or.inl ⟨err, h⟩), ?_, ?_, Or.inl (by simp [h])⟩
    · simp [h, List.countP_cons]
    · exact ⟨[workingEvent ctx.task_id ctx.contextIdOrTask], _,
        by simpa using h, by simp⟩
  · refine ⟨Or.inl ⟨txt, h⟩, ?_, ?_, Or.inl (by simp [h])⟩
    · simp [h, List.countP_cons]
    · exact ⟨[workingEvent ctx.task_id ctx.contextIdOrTask,
        artifactEvent ctx.task_id ctx.contextIdOrTask txt], _,
        by simpa using h, by simp⟩

/-- C1 counterexample: with context.message = None (a value the a2a SDK
explicitly allows), message.parts raises before the working event is ever
enqueued, so the sequence is [failed] alone — neither of the two sequences
the claim allows, and the working event is not first. -/
theorem executor_sequence_counterexample :
    execute initialize_kernel ⟨none, "t1", some "c1"⟩ =
      [failedEvent "t1" "c1" attrErrNoneParts] ∧
    ¬ ((∃ txt, execute initialize_kernel ⟨none, "t1", some "c1"⟩ =
          [workingEvent "t1" "c1", artifactEvent "t1" "c1" txt,
           completedEvent "t1" "c1"]) ∨
       (∃ err, execute initialize_kernel ⟨none, "t1", some "c1"⟩ =
          [workingEvent "t1" "c1", failedEvent "t1" "c1" err])) := by
  refine ⟨rfl, ?_⟩
  rintro (⟨txt, h⟩ | ⟨err, h⟩) <;>
    simp [execute, executeTryBody, workingEvent, failedEvent] at h

/-- C2: every exception raised inside the try block of execute is caught and
converted into a terminal failed TaskStatusUpdateEvent (state failed,
final=true) whose metadata carries the error message string; execute is a
total function into event lists, so no exception propagates to the caller. -/
theorem execute_converts_exceptions (kernel : Kernel) (ctx : RequestContext)
    (evs : List Event) (e : String)
    (h : executeTryBody kernel ctx = (evs, some e)) :
    execute kernel ctx =
      evs ++ [Event.statusUpdate ctx.task_id ctx.contextIdOrTask
        TaskState.failed true (some e)] := by
  simp [execute, h, failedEvent]

theorem execute_converts_exceptions_witness :
    execute initialize_kernel ⟨none, "w2", none⟩ =
      [] ++ [Event.statusUpdate "w2" "w2" TaskState.failed true
        (some attrErrNoneParts)] :=
  execute_converts_exceptions initialize_kernel ⟨none, "w2", none⟩ []
    attrErrNoneParts rfl

/-- C4: EchoPlugin.echo is the identity on strings; as a Lean function it is
pure by construction, so it has no side effects. -/
theorem echo_identity (text : String) : echo text = text := rfl

/-- C5: echo_with_prefix prepends its prefix argument to the message with no
separator; when the caller supplies no prefix parameter the default "Echo: "
is applied, both at the kernel-function default and on the
POST /agent/invoke route, which reads the prefix parameter with default
"Echo: ". -/
theorem echo_prefix_default_and_supplied (text p : String) :
    echo_with_prefix text "Echo: " = "Echo: " ++ text ∧
    echo_with_prefix text p = p ++ text ∧
    echoPrefixedKernelFn ⟨text, none⟩ = Except.ok ("Echo: " ++ text) ∧
    echoPrefixedKernelFn ⟨text, some p⟩ = Except.ok (p ++ text) ∧
    invoke_agent initialize_kernel ⟨text, "echo_with_prefix", []⟩ =
      Except.ok ⟨"Echo: " ++ text, agentId, "echo_with_prefix"⟩ ∧
    invoke_agent initialize_kernel ⟨text, "echo_with_prefix", [("prefix", p)]⟩ =
      Except.ok ⟨p ++ text, agentId, "echo_with_prefix"⟩ :=
  ⟨rfl, rfl, rfl, rfl, rfl, rfl⟩

/-- C6 counterexample: execute is a pure function of the kernel and the
request context alone — it takes no task state, consults no store, and
signals no AlreadyTerminalError. A call on a task whose earlier call already
enqueued the terminal completed event therefore performs the entire
execution again and enqueues a fresh full event sequence, instead of being
rejected. -/
theorem execute_repeat_not_rejected :
    execute initialize_kernel ⟨some ⟨[Part.text "hi"]⟩, "t6", some "c6"⟩ =
      [workingEvent "t6" "c6", artifactEvent "t6" "c6" "hi",
       completedEvent "t6" "c6"] ∧
    execute initialize_kernel ⟨some ⟨[Part.text "hi"]⟩, "t6", some "c6"⟩ ≠ [] := by
  exact ⟨rfl, by decide⟩

/-- C6 (amended): a further call to execute on a task already in a terminal
state is not rejected and not ignored: execute has no access to task state,
so every call — first or repeated — performs the full execution and enqueues
a nonempty event sequence ending in a terminal event; no AlreadyTerminalError
signal exists in the code. -/
theorem execute_runs_every_call (kernel : Kernel) (ctx : RequestContext) :
    ∃ pre e, execute kernel ctx = pre ++ [e] ∧ isTerminalEvent e = true := by
  rcases execute_shapes kernel ctx with ⟨_, h⟩ | ⟨_, err, h⟩ | ⟨_, txt, h⟩
  · exact ⟨[], _, by simpa using h, by simp⟩
  · exact ⟨[workingEvent ctx.task_id ctx.contextIdOrTask], _,
      by simpa using h, by simp⟩
  · exact ⟨[workingEvent ctx.task_id ctx.contextIdOrTask,
      artifactEvent ctx.task_id ctx.contextIdOrTask txt], _,
      by simpa using h, by simp⟩

/-- Auxiliary for C8: a fold over parts none of which carries text leaves the
accumulator unchanged. -/
theorem foldl_append_other (parts : List Part)
    (h : ∀ p ∈ parts, p = Part.other) (acc : String) :
    parts.foldl (fun a p => a ++ partText p) acc = acc := by
  induction parts generalizing acc with
  | nil => rfl
  | cons q rest ih =>
    have hq : q = Part.other := h q (by simp)
    have hrest : ∀ p ∈ rest, p = Part.other := fun p hp => h p (by simp [hp])
    rw [List.foldl_cons, hq]
    simp only [partText]
    rw [show acc ++ "" = acc by simp]
    exact ih hrest acc

/-- C8: a message whose parts carry no text (including the empty parts list)
yields the empty string as capability input — the extraction loop never
raises, it just appends nothing — and echo applied to the empty string
returns the empty string. -/
theorem no_text_parts_empty_input (parts : List Part)
    (h : ∀ p ∈ parts, p = Part.other) :
    extractText parts = "" ∧ echo "" = "" :=
  ⟨foldl_append_other parts h "", rfl⟩

theorem no_text_parts_empty_input_witness :
    extractText [Part.other, Part.other] = "" ∧ echo "" = "" :=
  no_text_parts_empty_input [Part.other, Part.other] (by decide)

/-- C9: EchoAgentExecutor.cancel returns True for every task id,
unconditionally — whether or not the task exists or is terminal. -/
theorem cancel_returns_true (taskId : String) : cancel taskId = true := rfl

/-- C10: execute resolves only the function registered under
("echo_plugin", "echo"), whatever the request carries; with the kernel built
by _initialize_kernel (which registers both capabilities), every successful
run therefore produces an artifact whose text equals the concatenated input
text — echo_with_prefix is unreachable through the executor path. -/
theorem execute_invokes_only_echo (ctx : RequestContext) (msg : Message)
    (h : ctx.message = some msg) :
    execute initialize_kernel ctx =
      [workingEvent ctx.task_id ctx.contextIdOrTask,
       artifactEvent ctx.task_id ctx.contextIdOrTask (extractText msg.parts),
       completedEvent ctx.task_id ctx.contextIdOrTask] := by
  have hget : initialize_kernel.get_function "echo_plugin" "echo" =
      Except.ok echoKernelFn := rfl
  simp [execute, executeTryBody, h, hget, echoKernelFn, echo]

theorem execute_invokes_only_echo_witness :
    execute initialize_kernel ⟨some ⟨[Part.text "abc", Part.other]⟩, "t10", none⟩ =
      [workingEvent "t10" "t10",
       artifactEvent "t10" "t10" (extractText [Part.text "abc", Part.other]),
       completedEvent "t10" "t10"] :=
  execute_invokes_only_echo ⟨some ⟨[Part.text "abc", Part.other]⟩, "t10", none⟩
    ⟨[Part.text "abc", Part.other]⟩ rfl

/-- C3 (code bug): the route constructs HTTPException(status_code=400) for an
unsupported capability, but raises it inside the try block whose blanket
except clause catches every Exception — HTTPException included — and
re-raises HTTPException(500, str(e)). The client therefore receives HTTP 500
with detail "400: Unsupported capability: ...", never the intended 400. -/
theorem invoke_agent_unsupported_capability_500 :
    invoke_agent initialize_kernel ⟨"hi", "bogus", []⟩ =
      Except.error (500, "400: Unsupported capability: bogus") := rfl

/-- Auxiliary for C7: a placeholder string starts with the dollar and open
brace characters. -/
theorem pyStartswith_placeholder (name : String) :
    pyStartswith ("$\x7b" ++ name ++ "\x7d") "$\x7b" = true := by
  rw [pyStartswith, List.isPrefixOf_iff_prefix, String.data_append,
    String.data_append]
  exact ⟨name.data ++ "\x7d".data, by simp⟩

/-- Auxiliary for C7: a placeholder string ends with the close brace. -/
theorem pyEndswith_placeholder (name : String) :
    pyEndswith ("$\x7b" ++ name ++ "\x7d") "\x7d" = true := by
  rw [pyEndswith, List.isSuffixOf_iff_suffix, String.data_append,
    String.data_append]
  exact ⟨"$\x7b".data ++ name.data, rfl⟩

/-- Auxiliary for C7: the slice [2:-1] of a placeholder string recovers the
variable name. -/
theorem pySlice2m1_placeholder (name : String) :
    pySlice2m1 ("$\x7b" ++ name ++ "\x7d") = name := by
  rw [pySlice2m1, String.data_append, String.data_append]
  rw [List.append_assoc]
  rw [show (2 : Nat) = ("$\x7b" : String).data.length from rfl, List.drop_left]
  rw [show ("\x7d" : String).data = ['\x7d'] from rfl, List.dropLast_concat]

/-- C7: a configuration string value of placeholder form is replaced by the
value of the named environment variable when it is set and left as the
unchanged literal when it is unset; a string value that is not of
placeholder form is returned unchanged. -/
theorem substitute_env_vars_placeholder (env : String → Option String)
    (name w : String)
    (hw : (pyStartswith w "$\x7b" && pyEndswith w "\x7d") = false) :
    substitute_env_vars env (ConfigVal.str ("$\x7b" ++ name ++ "\x7d")) =
      ConfigVal.str ((env name).getD ("$\x7b" ++ name ++ "\x7d")) ∧
    substitute_env_vars env (ConfigVal.str w) = ConfigVal.str w := by
  constructor
  · rw [substitute_env_vars]
    rw [pyStartswith_placeholder, pyEndswith_placeholder, pySlice2m1_placeholder]
    cases henv : env name <;> simp [henv]
  · rw [substitute_env_vars, hw]
    simp

theorem substitute_env_vars_placeholder_witness :
    substitute_env_vars (fun n => if n == "HOST" then some "example.com" else none)
        (ConfigVal.str ("$\x7b" ++ "HOST" ++ "\x7d")) =
      ConfigVal.str "example.com" ∧
    substitute_env_vars (fun n => if n == "HOST" then some "example.com" else none)
        (ConfigVal.str "localhost") = ConfigVal.str "localhost" := by
  have h := substitute_env_vars_placeholder
    (fun n => if n == "HOST" then some "example.com" else none)
    "HOST" "localhost" (by decide)
  simpa using h

end EchoAgent
